import Mathlib

/-!
Verification of the generation pipeline of the html-to-markdown repository.

This file gives a shallow embedding of the three scripts
`scripts/readme_filters.py`, `scripts/generate_readme.py` and
`scripts/generate_visitor_callbacks.py`, and proves theorems about the
embedded definitions.  Dynamic (Python/YAML) values are modelled by the
inductive type `Val`; the file system is a finite map from path strings to
file contents; the Jinja2 engine is an abstract parameter (`RenderEnv`).
-/

/-- Values of the dynamic (Python/YAML) data model: strings, integers,
lists and string-keyed mappings (in insertion order). -/
inductive Val where
  | str : String → Val
  | int : Int → Val
  | list : List Val → Val
  | dict : List (String × Val) → Val

/-- Characters treated as whitespace by Python `str.strip` and by the
regex class `\s` (ASCII range). -/
def pyIsSpace (c : Char) : Bool :=
  c = ' ' || c = '\t' || c = '\n' || c = '\r' || c = '\x0b' || c = '\x0c'

/-- Python `str.lstrip()`. -/
def pyLstrip (s : String) : String := ⟨s.data.dropWhile pyIsSpace⟩

/-- Python `str.rstrip()`. -/
def pyRstrip (s : String) : String := ⟨(s.data.reverse.dropWhile pyIsSpace).reverse⟩

/-- Python `s.startswith(pre)`. -/
def sStartsWith (s pre : String) : Bool := pre.data.isPrefixOf s.data

/-- Python `s.lstrip(".")`. -/
def lstripDots (s : String) : String := ⟨s.data.dropWhile (fun c => c = '.')⟩

/-- `pathlib.PurePath.name`: the final path component. -/
def basename (s : String) : String := ⟨(s.data.reverse.takeWhile (fun c => c ≠ '/')).reverse⟩

/-- `pathlib.PurePath.suffix`: the extension of the final component.  It is
empty when the name has no dot, when the name ends in a dot, and when the
only dot is the leading character (dotfiles). -/
def pathSuffix (p : String) : String :=
  let name := (basename p).data
  let ext := name.reverse.takeWhile (fun c => c ≠ '.')
  if name.length = ext.length then ""
  else if ext.length = 0 then ""
  else if ext.length + 1 = name.length then ""
  else ⟨'.' :: ext.reverse⟩

/-- `pathlib` `/` operator on string paths: an absolute right operand
replaces the left one. -/
def pathJoin (a b : String) : String :=
  if sStartsWith b "/" then b else a ++ "/" ++ b

/-- Lookup in a string-to-string association list (first match wins,
mirroring a Python dict built from distinct keys). -/
def strLookup : List (String × String) → String → Option String
  | [], _ => none
  | (k, v) :: rest, key => if k == key then some v else strLookup rest key

/-- `CodeBlockHandler.LANGUAGE_MAP` from `scripts/readme_filters.py`:
file extensions mapped to fence language tags. -/
def LANGUAGE_MAP : List (String × String) :=
  [(".py", "python"), (".go", "go"), (".java", "java"), (".js", "javascript"),
   (".ts", "typescript"), (".rb", "ruby"), (".php", "php"), (".cs", "csharp"),
   (".rs", "rust"), (".ex", "elixir"), (".exs", "elixir")]

/-- `CodeBlockHandler.wrap_code_block(content, snippet_path, language)`:
returns already-fenced content unchanged, otherwise looks the `language`
argument up in `LANGUAGE_MAP`, falling back to the snippet file suffix
without its dot, then to `text`, and wraps the right-stripped content in
fences. -/
def wrap_code_block (content : String) (snippet_path : String) (language : String) : String :=
  let content_stripped := pyLstrip content
  if sStartsWith content_stripped "```" then content
  else
    let ext := lstripDots (pathSuffix snippet_path)
    let fallback := if ext = "" then "text" else ext
    let lang_id := (strLookup LANGUAGE_MAP language).getD fallback
    let code := pyRstrip content
    "```" ++ lang_id ++ "\n" ++ code ++ "\n```\n"

theorem string_data_append (a b : String) : (a ++ b).data = a.data ++ b.data := by
  cases a; cases b; rfl

theorem wrap_output_starts_fenced (lang_id code : String) :
    sStartsWith (pyLstrip ("```" ++ lang_id ++ "\n" ++ code ++ "\n```\n")) "```" = true := by
  have h : ("```" ++ lang_id ++ "\n" ++ code ++ "\n```\n").data
      = '`' :: '`' :: '`' :: ((lang_id ++ "\n" ++ code ++ "\n```\n").data) := by
    rw [show ("```" ++ lang_id ++ "\n" ++ code ++ "\n```\n")
          = "```" ++ (lang_id ++ "\n" ++ code ++ "\n```\n") by
        simp [String.append_assoc]]
    rw [string_data_append]
    rfl
  simp only [pyLstrip, sStartsWith, h]
  simp [List.dropWhile, pyIsSpace, List.isPrefixOf]

theorem wrap_of_unfenced (c p l : String) (h : sStartsWith (pyLstrip c) "```" = false) :
    wrap_code_block c p l
      = "```" ++ ((strLookup LANGUAGE_MAP l).getD
          (if lstripDots (pathSuffix p) = "" then "text" else lstripDots (pathSuffix p)))
        ++ "\n" ++ pyRstrip c ++ "\n```\n" := by
  simp [wrap_code_block, h]

/-- C9: wrapping already-fenced content (content whose left-stripped form
begins with a triple backtick) is a no-op, and wrapping is idempotent. -/
theorem C9_wrap_noop_and_idempotent :
    (∀ content snippet_path language,
       sStartsWith (pyLstrip content) "```" = true →
       wrap_code_block content snippet_path language = content)
  ∧ (∀ content snippet_path language,
       wrap_code_block (wrap_code_block content snippet_path language) snippet_path language
         = wrap_code_block content snippet_path language) := by
  constructor
  · intro c p l h
    simp [wrap_code_block, h]
  · intro c p l
    by_cases h : sStartsWith (pyLstrip c) "```" = true
    · simp [wrap_code_block, h]
    · rw [wrap_of_unfenced c p l (by simpa using h)]
      have hf := wrap_output_starts_fenced
        ((strLookup LANGUAGE_MAP l).getD
          (if lstripDots (pathSuffix p) = "" then "text" else lstripDots (pathSuffix p)))
        (pyRstrip c)
      simp [wrap_code_block, hf]

/-- Witness for C9 at a concrete fenced input. -/
theorem C9_wrap_noop_and_idempotent_witness :
    sStartsWith (pyLstrip "```python\nx = 1\n```\n") "```" = true
  ∧ wrap_code_block "```python\nx = 1\n```\n" "example.py" "python" = "```python\nx = 1\n```\n" :=
  ⟨by decide,
   C9_wrap_noop_and_idempotent.1 "```python\nx = 1\n```\n" "example.py" "python" (by decide)⟩

/-- C4 (code bug): `LANGUAGE_MAP` is keyed by file extensions, but
`wrap_code_block` queries it with the language name, so the table never
matches and the snippet `example.py` with language `python` is fenced with
the extension tag `py`, not `python` as the specification states. -/
theorem C4_wrap_language_lookup_bug :
    wrap_code_block "print(\"hi\")" "example.py" "python" = "```py\nprint(\"hi\")\n```\n"
  ∧ wrap_code_block "print(\"hi\")" "example.py" "python" ≠ "```python\nprint(\"hi\")\n```\n"
  ∧ strLookup LANGUAGE_MAP ".py" = some "python"
  ∧ strLookup LANGUAGE_MAP "python" = none := by
  refine ⟨by decide, by decide, by decide, by decide⟩

/-- Regex class `\w` (word characters, ASCII model). -/
def isWordChar (c : Char) : Bool := c.isAlphanum || c = '_'

/-- Backtracking semantics of `\s*\n`: consume the leading whitespace run
up to and including its last newline; fails when that run holds no
newline.  The accumulator remembers the rest after the newline seen last. -/
def wsNewlineGo : List Char → Option (List Char) → Option (List Char)
  | [], acc => acc
  | c :: cs, acc =>
    if c = '\n' then wsNewlineGo cs (some cs)
    else if pyIsSpace c then wsNewlineGo cs acc
    else acc

def wsNewline (l : List Char) : Option (List Char) := wsNewlineGo l none

/-- Rest after the first `"` (regex `[^"]*"`). -/
def splitQuote : List Char → Option (List Char)
  | [] => none
  | c :: cs => if c = '"' then some cs else splitQuote cs

/-- Text before the first triple backtick (the lazy `(.*?)` followed by
the closing fence literal). -/
def splitFence : List Char → Option (List Char)
  | [] => none
  | c :: cs =>
    if c = '`' && ['`', '`'].isPrefixOf cs then some []
    else (splitFence cs).map (fun l => c :: l)

/-- Candidate header remainders for `\s*(?:title="[^"]*")?\s*\n`, listed
in the backtracking order of the regex engine: the titled branch first
(the optional group is greedy), then the plain `\s*\n` branch. -/
def headerCands (r : List Char) : List (List Char) :=
  let m := r.takeWhile pyIsSpace
  let r2 := r.drop m.length
  let titleCand :=
    if ['t', 'i', 't', 'l', 'e', '=', '"'].isPrefixOf r2 then
      match splitQuote (r2.drop 7) with
      | some rq => wsNewline rq
      | none => none
    else none
  titleCand.toList ++ (wsNewline r).toList

/-- First header candidate after which a closing fence is found, with the
enclosed text. -/
def firstClose : List (List Char) → Option (List Char)
  | [] => none
  | r :: rs =>
    match splitFence r with
    | some inner => some inner
    | none => firstClose rs

/-- Greedy `(\w+)?`: try the length-`n` word prefix as the language tag,
then shorter ones, finally none (group unmatched). -/
def tryLens (l : List Char) : Nat → Option (Option (List Char) × List Char)
  | 0 =>
    match firstClose (headerCands l) with
    | some inner => some (none, inner)
    | none => none
  | n + 1 =>
    match firstClose (headerCands (l.drop (n + 1))) with
    | some inner => some (some (l.take (n + 1)), inner)
    | none => tryLens l n

/-- Match of the pattern body right after an opening triple backtick. -/
def matchAt (l : List Char) : Option (Option (List Char) × List Char) :=
  tryLens l (l.takeWhile isWordChar).length

/-- `re.search` of the pattern
`` ```(\w+)?\s*(?:title="[^"]*")?\s*\n(.*?)``` `` (with `re.DOTALL`):
the leftmost opening fence from which the whole pattern matches. -/
def searchFence : List Char → Option (Option (List Char) × List Char)
  | [] => none
  | c :: cs =>
    if c = '`' && ['`', '`'].isPrefixOf cs then
      match matchAt (cs.drop 2) with
      | some r => some r
      | none => searchFence cs
    else searchFence cs

/-- `CodeBlockHandler.extract_code_block`: first fenced block of the
content, re-wrapped with the detected language tag (`text` when the tag
group did not match) around the right-stripped block body. -/
def extract_code_block (content : String) : Except String String :=
  match searchFence content.data with
  | none => .error "No code block found in markdown snippet"
  | some (langOpt, inner) =>
    let language := match langOpt with
      | some l => String.mk l
      | none => "text"
    let code := pyRstrip (String.mk inner)
    .ok ("```" ++ language ++ "\n" ++ code ++ "\n```\n")

/-- Whether the text holds a triple backtick anywhere. -/
def hasTripleBacktick : List Char → Bool
  | [] => false
  | c :: cs => (c = '`' && ['`', '`'].isPrefixOf cs) || hasTripleBacktick cs

theorem string_mk_data (s : String) : String.mk s.data = s := by
  cases s; rfl

theorem takeWhile_append_stop (p : Char → Bool) (xs : List Char) (y : Char) (ys : List Char)
    (h1 : ∀ x ∈ xs, p x = true) (h2 : p y = false) :
    (xs ++ y :: ys).takeWhile p = xs := by
  induction xs with
  | nil => simp [List.takeWhile_cons, h2]
  | cons a as ih =>
    have ha : p a = true := h1 a (by simp)
    simp [List.takeWhile_cons, ha, ih (fun x hx => h1 x (by simp [hx]))]

theorem takeWhile_append_nil (p : Char → Bool) (xs ys : List Char)
    (h1 : xs.takeWhile p = []) (h2 : ys.takeWhile p = []) :
    (xs ++ ys).takeWhile p = [] := by
  cases xs with
  | nil => simpa using h2
  | cons a as =>
    have ha : p a = false := by
      cases hpa : p a
      · rfl
      · simp [List.takeWhile_cons, hpa] at h1
    simp [List.takeWhile_cons, ha]

theorem wsNewlineGo_stop (l : List Char) (acc : Option (List Char))
    (h : l.takeWhile pyIsSpace = []) : wsNewlineGo l acc = acc := by
  cases l with
  | nil => rfl
  | cons c cs =>
    have hc : pyIsSpace c = false := by
      cases hpc : pyIsSpace c
      · rfl
      · simp [List.takeWhile_cons, hpc] at h
    have hcn : ¬ (c = '\n') := by
      intro he
      subst he
      simp [pyIsSpace] at hc
    simp [wsNewlineGo, hcn, hc]

theorem mem_takeWhile_pred (p : Char → Bool) (l : List Char) :
    ∀ c ∈ l.takeWhile p, p c = true := by
  induction l with
  | nil => simp
  | cons a as ih =>
    cases hpa : p a
    · simp [List.takeWhile_cons, hpa]
    · simp only [List.takeWhile_cons, hpa, if_true]
      intro c hc
      rcases List.mem_cons.mp hc with h1 | h1
      · rw [h1]
        exact hpa
      · exact ih c h1

theorem takeWhile_all_append (p : Char → Bool) (u v : List Char)
    (h : ∀ c ∈ u, p c = true) :
    (u ++ v).takeWhile p = u ++ v.takeWhile p := by
  induction u with
  | nil => simp
  | cons a as ih =>
    have ha : p a = true := h a (by simp)
    simp [List.takeWhile_cons, ha, ih (fun c hc => h c (by simp [hc]))]

theorem take_all_of_le_takeWhile (p : Char → Bool) (l : List Char) (n : Nat)
    (h : n ≤ (l.takeWhile p).length) : ∀ c ∈ l.take n, p c = true := by
  intro c hc
  have hpre : l.take n = (l.takeWhile p).take n := by
    conv_lhs => rw [← List.takeWhile_append_dropWhile p l]
    rw [List.take_append_of_le_length h]
  rw [hpre] at hc
  exact mem_takeWhile_pred p l c (List.mem_of_mem_take hc)

theorem pyIsSpace_not_word (c : Char) (h : pyIsSpace c = true) : isWordChar c = false := by
  simp only [pyIsSpace, Bool.or_eq_true, decide_eq_true_eq] at h
  rcases h with ((((h1 | h1) | h1) | h1) | h1) | h1 <;> subst h1 <;> decide

theorem splitFence_append (xs zs : List Char) (h : ∀ c ∈ xs, c ≠ '`') :
    splitFence (xs ++ '`' :: '`' :: '`' :: zs) = some xs := by
  induction xs with
  | nil => simp [splitFence, List.isPrefixOf]
  | cons a as ih =>
    have ha : ¬ (a = '`') := h a (by simp)
    simp [splitFence, ha, ih (fun c hc => h c (by simp [hc]))]

theorem isPrefixOf_append_backtick_false (tl : List Char) (htl : ∀ c ∈ tl, c ≠ '`') :
    ∀ xs zs : List Char, tl.isPrefixOf xs = false →
      tl.isPrefixOf (xs ++ '`' :: zs) = false := by
  induction tl with
  | nil =>
    intro xs zs h
    simp [List.isPrefixOf] at h
  | cons a as ih =>
    intro xs zs h
    cases xs with
    | nil =>
      have ha : ¬ (a = '`') := htl a (by simp)
      simp [List.isPrefixOf, ha]
    | cons x xs2 =>
      by_cases hax : a = x
      · subst hax
        have h2 : as.isPrefixOf xs2 = false := by
          simpa [List.isPrefixOf] using h
        have h3 := ih (fun c hc => htl c (by simp [hc])) xs2 zs h2
        simpa [List.isPrefixOf] using h3
      · simp [List.isPrefixOf, hax]

theorem wsNewlineGo_gap (w : List Char) (hw : ∀ c ∈ w, pyIsSpace c = true) :
    ∀ (rest : List Char) (acc : Option (List Char)),
      rest.takeWhile pyIsSpace = [] →
      wsNewlineGo (w ++ '\n' :: rest) acc = some rest := by
  induction w with
  | nil =>
    intro rest acc hrest
    show wsNewlineGo ('\n' :: rest) acc = some rest
    rw [wsNewlineGo]
    simp only [if_pos rfl]
    exact wsNewlineGo_stop rest _ hrest
  | cons c w2 ih =>
    intro rest acc hrest
    have hc : pyIsSpace c = true := hw c (by simp)
    show wsNewlineGo (c :: (w2 ++ '\n' :: rest)) acc = some rest
    rw [wsNewlineGo]
    by_cases hcn : c = '\n'
    · rw [if_pos hcn]
      exact ih (fun x hx => hw x (by simp [hx])) rest _ hrest
    · rw [if_neg hcn, if_pos hc]
      exact ih (fun x hx => hw x (by simp [hx])) rest _ hrest

theorem wsNewline_gap (w rest : List Char) (hw : ∀ c ∈ w, pyIsSpace c = true)
    (hrest : rest.takeWhile pyIsSpace = []) :
    wsNewline (w ++ '\n' :: rest) = some rest :=
  wsNewlineGo_gap w hw rest none hrest

theorem headerCands_gap (gap body post : List Char)
    (hgap : ∀ c ∈ gap, pyIsSpace c = true)
    (hbw : body.takeWhile pyIsSpace = [])
    (hbt : ['t', 'i', 't', 'l', 'e', '=', '"'].isPrefixOf body = false) :
    headerCands (gap ++ '\n' :: (body ++ '`' :: '`' :: '`' :: post))
      = [body ++ '`' :: '`' :: '`' :: post] := by
  have hstop : (body ++ '`' :: '`' :: '`' :: post).takeWhile pyIsSpace = [] :=
    takeWhile_append_nil _ _ _ hbw (by simp [List.takeWhile_cons, pyIsSpace])
  have hnl : pyIsSpace '\n' = true := by decide
  have hm : (gap ++ '\n' :: (body ++ '`' :: '`' :: '`' :: post)).takeWhile pyIsSpace
      = gap ++ ['\n'] := by
    rw [takeWhile_all_append _ _ _ hgap]
    simp [List.takeWhile_cons, hnl, hstop]
  have hr2 : (gap ++ '\n' :: (body ++ '`' :: '`' :: '`' :: post)).drop (gap ++ ['\n']).length
      = body ++ '`' :: '`' :: '`' :: post := by
    rw [show gap ++ '\n' :: (body ++ '`' :: '`' :: '`' :: post)
          = (gap ++ ['\n']) ++ (body ++ '`' :: '`' :: '`' :: post) by simp]
    rw [List.drop_left]
  have htp : ['t', 'i', 't', 'l', 'e', '=', '"'].isPrefixOf
      (body ++ '`' :: '`' :: '`' :: post) = false :=
    isPrefixOf_append_backtick_false _ (by decide) body ('`' :: '`' :: post) hbt
  have hws : wsNewline (gap ++ '\n' :: (body ++ '`' :: '`' :: '`' :: post))
      = some (body ++ '`' :: '`' :: '`' :: post) :=
    wsNewline_gap gap _ hgap hstop
  simp [headerCands, hm, hr2, htp, hws]

theorem matchAt_gap (tag gap body post : List Char)
    (htag : ∀ c ∈ tag, isWordChar c = true)
    (hgap : ∀ c ∈ gap, pyIsSpace c = true)
    (hbw : body.takeWhile pyIsSpace = [])
    (hbt : ['t', 'i', 't', 'l', 'e', '=', '"'].isPrefixOf body = false)
    (hbb : ∀ c ∈ body, c ≠ '`') :
    matchAt (tag ++ (gap ++ '\n' :: (body ++ '`' :: '`' :: '`' :: post)))
      = some ((if tag = [] then none else some tag), body) := by
  have hznw : (gap ++ '\n' :: (body ++ '`' :: '`' :: '`' :: post)).takeWhile isWordChar
      = [] := by
    cases gap with
    | nil =>
      have hnw : isWordChar '\n' = false := by decide
      simp [List.takeWhile_cons, hnw]
    | cons g gs =>
      have hgw : isWordChar g = false := pyIsSpace_not_word g (hgap g (by simp))
      simp [List.takeWhile_cons, hgw]
  have htw : (tag ++ (gap ++ '\n' :: (body ++ '`' :: '`' :: '`' :: post))).takeWhile isWordChar
      = tag := by
    rw [takeWhile_all_append _ _ _ htag, hznw, List.append_nil]
  have hclose : firstClose (headerCands (gap ++ '\n' :: (body ++ '`' :: '`' :: '`' :: post)))
      = some body := by
    rw [headerCands_gap gap body post hgap hbw hbt]
    simp [firstClose, splitFence_append body post hbb]
  unfold matchAt
  rw [htw]
  cases tag with
  | nil =>
    simp [tryLens, hclose]
  | cons t ts =>
    have hlen : (t :: ts).length = ts.length + 1 := by simp
    rw [hlen]
    have hdrop : ((t :: ts) ++ (gap ++ '\n' :: (body ++ '`' :: '`' :: '`' :: post))).drop
        (ts.length + 1) = gap ++ '\n' :: (body ++ '`' :: '`' :: '`' :: post) := by
      rw [show ts.length + 1 = (t :: ts).length by simp, List.drop_left]
    have htake : ((t :: ts) ++ (gap ++ '\n' :: (body ++ '`' :: '`' :: '`' :: post))).take
        (ts.length + 1) = t :: ts := by
      rw [show ts.length + 1 = (t :: ts).length by simp, List.take_left]
    simp [tryLens, hdrop, hclose, htake]

theorem searchFence_found (R : List Char) (res : Option (List Char) × List Char)
    (h : matchAt R = some res) :
    searchFence ('`' :: '`' :: '`' :: R) = some res := by
  simp [searchFence, List.isPrefixOf, h]

theorem searchFence_skip (pre : List Char) (hpre : ∀ c ∈ pre, c ≠ '`') :
    ∀ l : List Char, searchFence (pre ++ l) = searchFence l := by
  induction pre with
  | nil =>
    intro l
    rfl
  | cons c pre2 ih =>
    intro l
    have hc : ¬ (c = '`') := hpre c (by simp)
    show searchFence (c :: (pre2 ++ l)) = searchFence l
    rw [searchFence]
    simp [hc, ih (fun x hx => hpre x (by simp [hx])) l]

theorem isPrefixOf_decomp (l1 : List Char) :
    ∀ l2 : List Char, l1.isPrefixOf l2 = true → ∃ t, l2 = l1 ++ t := by
  induction l1 with
  | nil =>
    intro l2 _
    exact ⟨l2, rfl⟩
  | cons a as ih =>
    intro l2 h
    cases l2 with
    | nil => simp [List.isPrefixOf] at h
    | cons b bs =>
      simp only [List.isPrefixOf, Bool.and_eq_true, beq_iff_eq] at h
      obtain ⟨hab, h2⟩ := h
      obtain ⟨t, ht⟩ := ih bs h2
      exact ⟨t, by simp [hab, ht]⟩

theorem splitFence_some_decomp :
    ∀ l inner : List Char, splitFence l = some inner →
      ∃ z, l = inner ++ '`' :: '`' :: '`' :: z := by
  intro l
  induction l with
  | nil =>
    intro inner h
    simp [splitFence] at h
  | cons c cs ih =>
    intro inner h
    rw [splitFence] at h
    by_cases hcond : (decide (c = '`') && ['`', '`'].isPrefixOf cs) = true
    · rw [if_pos hcond] at h
      rw [Option.some.injEq] at h
      simp only [Bool.and_eq_true, decide_eq_true_eq] at hcond
      obtain ⟨hc, hp⟩ := hcond
      obtain ⟨t, ht⟩ := isPrefixOf_decomp ['`', '`'] cs hp
      subst hc
      refine ⟨t, ?_⟩
      rw [← h]
      simp [ht]
    · rw [if_neg hcond] at h
      cases hs : splitFence cs with
      | none =>
        rw [hs] at h
        simp at h
      | some inner2 =>
        rw [hs] at h
        simp only [Option.map_some', Option.some.injEq] at h
        obtain ⟨z, hz⟩ := ih inner2 hs
        refine ⟨z, ?_⟩
        rw [← h]
        simp [hz]

theorem splitQuote_some_decomp :
    ∀ l r : List Char, splitQuote l = some r →
      ∃ q, l = q ++ '"' :: r ∧ (∀ c ∈ q, c ≠ '"') := by
  intro l
  induction l with
  | nil =>
    intro r h
    simp [splitQuote] at h
  | cons c cs ih =>
    intro r h
    rw [splitQuote] at h
    by_cases hc : c = '"'
    · rw [if_pos hc] at h
      rw [Option.some.injEq] at h
      subst hc
      refine ⟨[], ?_, by simp⟩
      simp [h]
    · rw [if_neg hc] at h
      obtain ⟨q, hq, hqf⟩ := ih r h
      refine ⟨c :: q, by simp [hq], ?_⟩
      intro x hx
      rcases List.mem_cons.mp hx with h1 | h1
      · rw [h1]
        exact hc
      · exact hqf x h1

theorem wsNewlineGo_some :
    ∀ (l : List Char) (acc : Option (List Char)) (r : List Char),
      wsNewlineGo l acc = some r →
      acc = some r ∨ ∃ w, (∀ c ∈ w, pyIsSpace c = true) ∧ l = w ++ '\n' :: r := by
  intro l
  induction l with
  | nil =>
    intro acc r h
    exact Or.inl h
  | cons c cs ih =>
    intro acc r h
    rw [wsNewlineGo] at h
    by_cases hcn : c = '\n'
    · rw [if_pos hcn] at h
      rcases ih (some cs) r h with h1 | ⟨w, hw, hcs⟩
      · rw [Option.some.injEq] at h1
        refine Or.inr ⟨[], by simp, ?_⟩
        simp [hcn, h1]
      · refine Or.inr ⟨c :: w, ?_, by simp [hcs]⟩
        intro x hx
        rcases List.mem_cons.mp hx with h2 | h2
        · rw [h2, hcn]
          decide
        · exact hw x h2
    · rw [if_neg hcn] at h
      by_cases hcs : pyIsSpace c = true
      · rw [if_pos hcs] at h
        rcases ih acc r h with h1 | ⟨w, hw, hx⟩
        · exact Or.inl h1
        · refine Or.inr ⟨c :: w, ?_, by simp [hx]⟩
          intro x hxm
          rcases List.mem_cons.mp hxm with h2 | h2
          · rw [h2]
            exact hcs
          · exact hw x h2
      · rw [if_neg hcs] at h
        exact Or.inl h

theorem wsNewline_some (l r : List Char) (h : wsNewline l = some r) :
    ∃ w, (∀ c ∈ w, pyIsSpace c = true) ∧ l = w ++ '\n' :: r := by
  rcases wsNewlineGo_some l none r h with h1 | h2
  · simp at h1
  · exact h2

theorem firstClose_some :
    ∀ (cands : List (List Char)) (inner : List Char),
      firstClose cands = some inner →
      ∃ cand ∈ cands, splitFence cand = some inner := by
  intro cands
  induction cands with
  | nil =>
    intro inner h
    simp [firstClose] at h
  | cons c cs ih =>
    intro inner h
    rw [firstClose] at h
    cases hs : splitFence c with
    | some i2 =>
      rw [hs] at h
      rw [Option.some.injEq] at h
      subst h
      exact ⟨c, by simp, hs⟩
    | none =>
      rw [hs] at h
      obtain ⟨cand, hm, hsp⟩ := ih inner h
      exact ⟨cand, by simp [hm], hsp⟩

theorem takeWhile_self_append_drop (p : Char → Bool) (r : List Char) :
    r = r.takeWhile p ++ r.drop (r.takeWhile p).length := by
  obtain ⟨t, ht⟩ := (List.takeWhile_prefix p : r.takeWhile p <+: r)
  have h2 := congrArg (fun l : List Char => l.drop (r.takeWhile p).length) ht
  simp only [List.drop_left] at h2
  rw [← h2]
  exact ht.symm

theorem mem_headerCands_decomp (r cand : List Char) (h : cand ∈ headerCands r) :
    ∃ w1 topt w2, r = w1 ++ topt ++ w2 ++ '\n' :: cand
      ∧ (∀ c ∈ w1, pyIsSpace c = true)
      ∧ (∀ c ∈ w2, pyIsSpace c = true)
      ∧ (topt = [] ∨ ∃ q, topt = ['t', 'i', 't', 'l', 'e', '=', '"'] ++ q ++ ['"']
          ∧ (∀ c ∈ q, c ≠ '"')) := by
  have hsplit := takeWhile_self_append_drop pyIsSpace r
  have hmws : ∀ c ∈ r.takeWhile pyIsSpace, pyIsSpace c = true := mem_takeWhile_pred _ r
  unfold headerCands at h
  rw [List.mem_append] at h
  rcases h with h | h
  · -- the title candidate fired
    split at h
    · rename_i hp
      split at h
      · rename_i rq hsq
        -- h : cand ∈ (wsNewline rq).toList
        have hwn : wsNewline rq = some cand := by
          cases hw : wsNewline rq with
          | none =>
            rw [hw] at h
            simp [Option.toList] at h
          | some x =>
            rw [hw] at h
            simp only [Option.toList, List.mem_singleton] at h
            rw [h]
        obtain ⟨t3, ht3⟩ :=
          isPrefixOf_decomp ['t', 'i', 't', 'l', 'e', '=', '"'] _ hp
        have hd7 : (r.drop (r.takeWhile pyIsSpace).length).drop 7 = t3 := by
          rw [ht3]
          rw [show (7 : Nat) = (['t', 'i', 't', 'l', 'e', '=', '"'] : List Char).length by rfl]
          rw [List.drop_left]
        rw [hd7] at hsq
        obtain ⟨q, hq, hqf⟩ := splitQuote_some_decomp t3 rq hsq
        obtain ⟨w2, hw2, hrq⟩ := wsNewline_some rq cand hwn
        refine ⟨r.takeWhile pyIsSpace, ['t', 'i', 't', 'l', 'e', '=', '"'] ++ q ++ ['"'], w2,
          ?_, hmws, hw2, Or.inr ⟨q, rfl, hqf⟩⟩
        conv_lhs => rw [hsplit]
        rw [ht3, hq, hrq]
        simp [List.append_assoc]
      · simp [Option.toList] at h
    · simp [Option.toList] at h
  · -- the plain whitespace-newline candidate fired
    have hwn : wsNewline r = some cand := by
      cases hw : wsNewline r with
      | none =>
        rw [hw] at h
        simp [Option.toList] at h
      | some x =>
        rw [hw] at h
        simp only [Option.toList, List.mem_singleton] at h
        rw [h]
    obtain ⟨w, hwp, hr⟩ := wsNewline_some r cand hwn
    exact ⟨w, [], [], by simp [hr], hwp, by simp, Or.inl rfl⟩

theorem tryLens_some (l : List Char) :
    ∀ (N : Nat) (res : Option (List Char) × List Char),
      tryLens l N = some res →
      ∃ n, n ≤ N ∧ firstClose (headerCands (l.drop n)) = some res.2
        ∧ res.1 = (if n = 0 then none else some (l.take n)) := by
  intro N
  induction N with
  | zero =>
    intro res h
    rw [tryLens] at h
    cases hf : firstClose (headerCands l) with
    | none =>
      rw [hf] at h
      simp at h
    | some inner =>
      rw [hf] at h
      rw [Option.some.injEq] at h
      refine ⟨0, Nat.le_refl 0, ?_, ?_⟩
      · rw [← h]
        simpa using hf
      · rw [← h]
        simp
  | succ n2 ih =>
    intro res h
    rw [tryLens] at h
    cases hf : firstClose (headerCands (l.drop (n2 + 1))) with
    | some inner =>
      rw [hf] at h
      rw [Option.some.injEq] at h
      refine ⟨n2 + 1, Nat.le_refl _, ?_, ?_⟩
      · rw [← h]
        simpa using hf
      · rw [← h]
        simp
    | none =>
      rw [hf] at h
      obtain ⟨n, hn, hfc, hl⟩ := ih res h
      exact ⟨n, Nat.le_succ_of_le hn, hfc, hl⟩

theorem searchFence_some_decomp :
    ∀ (l : List Char) (res : Option (List Char) × List Char),
      searchFence l = some res →
      ∃ pre R, l = pre ++ '`' :: '`' :: '`' :: R ∧ matchAt R = some res := by
  intro l
  induction l with
  | nil =>
    intro res h
    simp [searchFence] at h
  | cons c cs ih =>
    intro res h
    rw [searchFence] at h
    by_cases hcond : (decide (c = '`') && ['`', '`'].isPrefixOf cs) = true
    · rw [if_pos hcond] at h
      simp only [Bool.and_eq_true, decide_eq_true_eq] at hcond
      obtain ⟨hc, hp⟩ := hcond
      obtain ⟨t, ht⟩ := isPrefixOf_decomp ['`', '`'] cs hp
      cases hm : matchAt (cs.drop 2) with
      | some r2 =>
        rw [hm] at h
        rw [Option.some.injEq] at h
        subst hc
        refine ⟨[], t, by simp [ht], ?_⟩
        have hct : cs.drop 2 = t := by
          rw [ht]
          rfl
        rw [← hct, hm, h]
      | none =>
        rw [hm] at h
        obtain ⟨pre, R, hpre, hmm⟩ := ih res h
        exact ⟨c :: pre, R, by simp [hpre], hmm⟩
    · rw [if_neg hcond] at h
      obtain ⟨pre, R, hpre, hmm⟩ := ih res h
      exact ⟨c :: pre, R, by simp [hpre], hmm⟩

/-- A fenced block as the extractor recognises it (spec glossary: a region
delimited by triple-backtick markers, with an optional word-character
language tag and an optional title attribute on the opening fence line):
some decomposition of the document into material before the opening
fence, the tag, header whitespace with the optional title attribute, the
newline ending the fence line, the block body, and a closing fence with
trailing material. -/
def containsFencedBlock (content : String) : Prop :=
  ∃ pre tag w1 topt w2 body post : List Char,
    content.data
      = pre ++ '`' :: '`' :: '`'
          :: (tag ++ w1 ++ topt ++ w2 ++ '\n' :: (body ++ '`' :: '`' :: '`' :: post))
    ∧ (∀ c ∈ tag, isWordChar c = true)
    ∧ (∀ c ∈ w1, pyIsSpace c = true)
    ∧ (∀ c ∈ w2, pyIsSpace c = true)
    ∧ (topt = [] ∨ ∃ q, topt = ['t', 'i', 't', 'l', 'e', '=', '"'] ++ q ++ ['"']
        ∧ (∀ c ∈ q, c ≠ '"'))

theorem searchFence_some_contains (content : String) (res : Option (List Char) × List Char)
    (h : searchFence content.data = some res) : containsFencedBlock content := by
  obtain ⟨pre, R, hR, hm⟩ := searchFence_some_decomp content.data res h
  obtain ⟨n, hn, hfc, hres1⟩ := tryLens_some R (R.takeWhile isWordChar).length res hm
  obtain ⟨cand, hmem, hsp⟩ := firstClose_some _ res.2 hfc
  obtain ⟨w1, topt, w2, hdec, hw1, hw2, htopt⟩ := mem_headerCands_decomp (R.drop n) cand hmem
  obtain ⟨z, hz⟩ := splitFence_some_decomp cand res.2 hsp
  refine ⟨pre, R.take n, w1, topt, w2, res.2, z, ?_,
    take_all_of_le_takeWhile isWordChar R n hn, hw1, hw2, htopt⟩
  have hRfull : R = R.take n ++ (w1 ++ topt ++ w2 ++ '\n' :: (res.2 ++ '`' :: '`' :: '`' :: z)) := by
    conv_lhs => rw [← List.take_append_drop n R]
    rw [hdec, hz]
  rw [hR]
  conv_lhs => rw [hRfull]
  simp [List.append_assoc]

/-- Whether the text holds a triple backtick anywhere (every fenced block
contains one). -/
theorem hasTriple_append (A Z : List Char) :
    hasTripleBacktick (A ++ '`' :: '`' :: '`' :: Z) = true := by
  induction A with
  | nil => simp [hasTripleBacktick, List.isPrefixOf]
  | cons a as ih => simp [hasTripleBacktick, ih]

theorem containsFencedBlock_hasTriple (content : String)
    (h : containsFencedBlock content) : hasTripleBacktick content.data = true := by
  obtain ⟨pre, tag, w1, topt, w2, body, post, hdec, _⟩ := h
  rw [hdec]
  exact hasTriple_append pre _

/-- C5 (amended): extraction finds the first fenced block and returns its
body with trailing whitespace stripped and exactly one trailing newline
restored — not unchanged — re-wrapped in a normalized fence tagged with
the block tag, or `text` when there is none, absorbing any whitespace run
between the fence line and the body into the header; proved for documents
with arbitrary backtick-free material before the block, any all-whitespace
header gap, a backtick-free body not starting with whitespace or a title
attribute, and arbitrary material after the closing fence.  A document
containing no fenced block at all (no triple-backtick-delimited region
with a well-formed opening fence line) fails with the format error. -/
theorem C5_extract_amended :
    (∀ pre tag gap body post : String,
       (∀ c ∈ pre.data, c ≠ '`') →
       (∀ c ∈ tag.data, isWordChar c = true) →
       (∀ c ∈ gap.data, pyIsSpace c = true) →
       (∀ c ∈ body.data, c ≠ '`') →
       body.data.takeWhile pyIsSpace = [] →
       ['t', 'i', 't', 'l', 'e', '=', '"'].isPrefixOf body.data = false →
       extract_code_block (pre ++ "```" ++ tag ++ gap ++ "\n" ++ body ++ "```" ++ post)
         = .ok ("```" ++ (if tag = "" then "text" else tag) ++ "\n"
             ++ pyRstrip body ++ "\n```\n"))
  ∧ (∀ content : String, ¬ containsFencedBlock content →
       extract_code_block content = .error "No code block found in markdown snippet") := by
  constructor
  · intro pre tag gap body post hpre htag hgap hbb hbw hbt
    have e1 : ("```" : String).data = ['`', '`', '`'] := rfl
    have e2 : ("\n" : String).data = ['\n'] := rfl
    have hdata : (pre ++ "```" ++ tag ++ gap ++ "\n" ++ body ++ "```" ++ post).data
        = pre.data ++ '`' :: '`' :: '`'
            :: (tag.data ++ (gap.data ++ '\n' :: (body.data ++ '`' :: '`' :: '`' :: post.data))) := by
      simp [string_data_append, e1, e2, List.append_assoc]
    unfold extract_code_block
    rw [hdata, searchFence_skip pre.data hpre, searchFence_found _ _
      (matchAt_gap tag.data gap.data body.data post.data htag hgap hbw hbt hbb)]
    by_cases hd : tag.data = []
    · have htag2 : tag = "" := by
        cases tag
        simp at hd
        simp [hd]
      simp [hd, htag2, string_mk_data]
    · have htag2 : ¬ (tag = "") := by
        intro he
        rw [he] at hd
        exact hd rfl
      simp [hd, htag2, string_mk_data]
  · intro content hnc
    cases hsf : searchFence content.data with
    | none =>
      unfold extract_code_block
      rw [hsf]
    | some res =>
      exact absurd (searchFence_some_contains content res hsf) hnc

/-- Witness for the amended C5: a block between prose, with a
space-and-newline header gap absorbed into the fence line; and a
fence-free document raising the format error. -/
theorem C5_extract_amended_witness :
    extract_code_block ("Intro text.\n" ++ "```" ++ "py" ++ " \n" ++ "\n" ++ "x = 1\n"
        ++ "```" ++ "\nTrailing prose.")
      = .ok ("```" ++ (if ("py" : String) = "" then "text" else "py") ++ "\n"
          ++ pyRstrip "x = 1\n" ++ "\n```\n")
  ∧ extract_code_block "no code here" = .error "No code block found in markdown snippet" :=
  ⟨C5_extract_amended.1 "Intro text.\n" "py" " \n" "x = 1\n" "\nTrailing prose."
     (by decide) (by decide) (by decide) (by decide) (by decide) (by decide),
   C5_extract_amended.2 "no code here"
     (fun hc => absurd (containsFencedBlock_hasTriple "no code here" hc) (by decide))⟩

/-- C5 counterexample: the document holds exactly one fenced block with
body `x\n\n`, yet extraction strips the trailing blank line, so the block
body is not returned unchanged. -/
theorem C5_counterexample :
    extract_code_block "```\nx\n\n```" = .ok "```text\nx\n```\n"
  ∧ ("```text\nx\n```\n" : String) ≠ "```text\nx\n\n```\n" := by
  refine ⟨by rfl, by decide⟩

-- Python `==` on dynamic values (used by membership tests on lists).
mutual

/-- Python `==` on dynamic values. -/
def valBeq : Val → Val → Bool
  | .str a, .str b => a == b
  | .int a, .int b => a == b
  | .list a, .list b => valListBeq a b
  | .dict a, .dict b => valDictBeq a b
  | _, _ => false

def valListBeq : List Val → List Val → Bool
  | [], [] => true
  | a :: as2, b :: bs2 => valBeq a b && valListBeq as2 bs2
  | _, _ => false

def valDictBeq : List (String × Val) → List (String × Val) → Bool
  | [], [] => true
  | (k1, v1) :: r1, (k2, v2) :: r2 => k1 == k2 && valBeq v1 v2 && valDictBeq r1 r2
  | _, _ => false

end

-- Python `repr` on dynamic values (quote escaping not modelled).
mutual

/-- Python `repr` on a dynamic value. -/
def pyRepr : Val → String
  | .str s => "\x27" ++ s ++ "\x27"
  | .int n => toString n
  | .list xs => "[" ++ pyReprList xs ++ "]"
  | .dict kvs => "\x7b" ++ pyReprDict kvs ++ "\x7d"

def pyReprList : List Val → String
  | [] => ""
  | [x] => pyRepr x
  | x :: xs => pyRepr x ++ ", " ++ pyReprList xs

def pyReprDict : List (String × Val) → String
  | [] => ""
  | [(k, v)] => "\x27" ++ k ++ "\x27: " ++ pyRepr v
  | (k, v) :: r => "\x27" ++ k ++ "\x27: " ++ pyRepr v ++ ", " ++ pyReprDict r

end

/-- Python `str` on dynamic values, as used in f-string interpolation. -/
def pyStr : Val → String
  | .str s => s
  | v => pyRepr v

/-- Python truthiness of a dynamic value. -/
def pyTruthy : Val → Bool
  | .str s => s != ""
  | .int n => n != 0
  | .list xs => !xs.isEmpty
  | .dict kvs => !kvs.isEmpty

/-- Lookup in a string-keyed mapping (first match wins). -/
def dictLookup : List (String × Val) → String → Option Val
  | [], _ => none
  | (k, v) :: rest, key => if k == key then some v else dictLookup rest key

/-- Substring test (Python `in` on strings). -/
def isSubstr (needle : List Char) : List Char → Bool
  | [] => needle.isEmpty
  | c :: t => needle.isPrefixOf (c :: t) || isSubstr needle t

/-- Python `key in container` for a string key. -/
def pyInStrKey (k : String) : Val → Except String Bool
  | .dict kvs => .ok (dictLookup kvs k).isSome
  | .str s => .ok (isSubstr k.data s.data)
  | .list xs => .ok (xs.any (fun v => valBeq v (.str k)))
  | .int _ => .error "TypeError: argument of type int is not iterable"

/-- Python `container[key]` for a string key. -/
def pySubscript : Val → String → Except String Val
  | .dict kvs, k =>
    match dictLookup kvs k with
    | some v => .ok v
    | none => .error ("KeyError: " ++ k)
  | .str _, _ => .error "TypeError: string indices must be integers"
  | .list _, _ => .error "TypeError: list indices must be integers"
  | .int _, _ => .error "TypeError: int is not subscriptable"

/-- Python `container[0]`. -/
def pyIndexZero : Val → Except String Val
  | .list [] => .error "IndexError: list index out of range"
  | .list (x :: _) => .ok x
  | .str s =>
    match s.data with
    | [] => .error "IndexError: string index out of range"
    | c :: _ => .ok (.str (String.mk [c]))
  | .dict _ => .error "KeyError: 0"
  | .int _ => .error "TypeError: int is not subscriptable"

/-- Python `for x in container`. -/
def pyIter : Val → Except String (List Val)
  | .list xs => .ok xs
  | .str s => .ok (s.data.map (fun c => .str (String.mk [c])))
  | .dict kvs => .ok (kvs.map (fun kv => .str kv.1))
  | .int _ => .error "TypeError: int is not iterable"

/-- Insert thousands separators into a reversed digit list. -/
def commaChunk : List Char → List Char
  | a :: b :: c :: d :: rest => a :: b :: c :: ',' :: commaChunk (d :: rest)
  | l => l

/-- Python format `f"{m:,}"` for a natural number. -/
def natComma (m : Nat) : String := ⟨(commaChunk (toString m).data.reverse).reverse⟩

/-- Python format `f"{n:,}"` for an integer. -/
def intComma (n : Int) : String :=
  if n < 0 then "-" ++ natComma n.natAbs else natComma n.toNat

/-- Python format `f"{v:,}"`: thousands separation is only valid on
numbers. -/
def pyFormatComma : Val → Except String String
  | .int n => .ok (intComma n)
  | _ => .error "ValueError: cannot specify comma with s"

/-- Concatenation of a list of strings. -/
def strJoin : List String → String
  | [] => ""
  | s :: rest => s ++ strJoin rest

/-- Header line of `PerformanceTableRenderer.render`
(`f"{platform} • {note} • {function} ({runtime})\n\n"` with the function
name between backticks). -/
def perfHeader (perf_data : List (String × Val)) (runtime : String) : String :=
  let platform := pyStr ((dictLookup perf_data "platform").getD (.str "Unknown"))
  let function := pyStr ((dictLookup perf_data "function").getD (.str "convert()"))
  let note := pyStr ((dictLookup perf_data "note").getD (.str ""))
  platform ++ " • " ++ note ++ " • `" ++ function ++ "` (" ++ runtime ++ ")\n\n"

/-- Row loop of `_render_latency_table`. -/
def latRows : List Val → Except String String
  | [] => .ok ""
  | b :: bs => do
    let nv ← pySubscript b "name"
    let sv ← pySubscript b "size"
    let lv ← pySubscript b "latency"
    let tv ← pySubscript b "throughput"
    let rest ← latRows bs
    return "| " ++ pyStr nv ++ " | " ++ pyStr sv ++ " | "
      ++ pyStr lv ++ " | " ++ pyStr tv ++ " |\n" ++ rest

/-- Row loop of `_render_ops_sec_table` when `throughput` is present. -/
def opsThrRows : List Val → Except String String
  | [] => .ok ""
  | b :: bs => do
    let nv ← pySubscript b "name"
    let sv ← pySubscript b "size"
    let ov ← pySubscript b "ops_sec"
    let oc ← pyFormatComma ov
    let tv ← pySubscript b "throughput"
    let rest ← opsThrRows bs
    return "| " ++ pyStr nv ++ " | " ++ pyStr sv ++ " | "
      ++ oc ++ " | " ++ pyStr tv ++ " |\n" ++ rest

/-- Row loop of `_render_ops_sec_table` without `throughput`. -/
def opsRows : List Val → Except String String
  | [] => .ok ""
  | b :: bs => do
    let nv ← pySubscript b "name"
    let sv ← pySubscript b "size"
    let ov ← pySubscript b "ops_sec"
    let oc ← pyFormatComma ov
    let rest ← opsRows bs
    return "| " ++ pyStr nv ++ " | " ++ pyStr sv ++ " | " ++ oc ++ " |\n" ++ rest

/-- `PerformanceTableRenderer._render_latency_table`. -/
def renderLatencyTable (benchmarks : Val) : Except String String := do
  let bs ← pyIter benchmarks
  let rows ← latRows bs
  return "| Document | Size | Latency | Throughput |\n| -------- | ---- | ------- | ---------- |\n"
    ++ rows

/-- `PerformanceTableRenderer._render_ops_sec_table`. -/
def renderOpsSecTable (benchmarks : Val) : Except String String := do
  let first ← pyIndexZero benchmarks
  let ht ← pyInStrKey "throughput" first
  let bs ← pyIter benchmarks
  if ht then do
    let rows ← opsThrRows bs
    return "| Document | Size | Ops/sec | Throughput |\n| -------- | ---- | ------- | ---------- |\n"
      ++ rows
  else do
    let rows ← opsRows bs
    return "| Document | Size | Ops/sec |\n| -------- | ---- | ------- |\n" ++ rows

/-- `PerformanceTableRenderer.render(perf_data, runtime)`. -/
def PerformanceTableRenderer.render (perf_data : List (String × Val)) (runtime : String) :
    Except String String :=
  if perf_data.isEmpty || (dictLookup perf_data "benchmarks").isNone then .ok ""
  else
    match dictLookup perf_data "benchmarks" with
    | none => .ok ""
    | some benchmarks =>
      let header := perfHeader perf_data runtime
      if !(pyTruthy benchmarks) then .ok (header ++ "\n(No benchmarks available)\n")
      else do
        let first ← pyIndexZero benchmarks
        let usesLatency ← pyInStrKey "latency" first
        let usesOpsSec ← pyInStrKey "ops_sec" first
        let table ←
          if usesLatency then renderLatencyTable benchmarks
          else if usesOpsSec then renderOpsSecTable benchmarks
          else (Except.ok "\n(Unknown benchmark format)\n" : Except String String)
        return header ++ table

/-- A latency/throughput benchmark record, all fields strings. -/
def latRec (nm sz lat thr : String) : Val :=
  .dict [("name", .str nm), ("size", .str sz), ("latency", .str lat), ("throughput", .str thr)]

/-- An ops_sec benchmark record without throughput. -/
def opsRec (nm sz : String) (ops : Int) : Val :=
  .dict [("name", .str nm), ("size", .str sz), ("ops_sec", .int ops)]

/-- A record with neither `latency` nor `ops_sec`. -/
def bareRec (nm sz : String) : Val :=
  .dict [("name", .str nm), ("size", .str sz)]

theorem latRows_map (l : List (String × String × String × String)) :
    latRows (l.map (fun r => latRec r.1 r.2.1 r.2.2.1 r.2.2.2))
      = .ok (strJoin (l.map (fun r =>
          "| " ++ r.1 ++ " | " ++ r.2.1 ++ " | " ++ r.2.2.1 ++ " | " ++ r.2.2.2 ++ " |\n"))) := by
  induction l with
  | nil => rfl
  | cons q qs ih =>
    simp only [List.map_cons]
    rw [latRows]
    simp only [latRec] at ih
    simp [latRec, pySubscript, dictLookup, pyStr, ih, strJoin,
      Bind.bind, Except.bind, Functor.map, Except.map, pure, Except.pure]

theorem opsRows_map (l : List (String × String × Int)) :
    opsRows (l.map (fun r => opsRec r.1 r.2.1 r.2.2))
      = .ok (strJoin (l.map (fun r =>
          "| " ++ r.1 ++ " | " ++ r.2.1 ++ " | " ++ intComma r.2.2 ++ " |\n"))) := by
  induction l with
  | nil => rfl
  | cons q qs ih =>
    simp only [List.map_cons]
    rw [opsRows]
    simp only [opsRec] at ih
    simp [opsRec, pySubscript, dictLookup, pyStr, pyFormatComma, ih, strJoin,
      Bind.bind, Except.bind, Functor.map, Except.map, pure, Except.pure]

theorem dictLookup_some_nonempty (pd : List (String × Val)) (k : String) (v : Val)
    (h : dictLookup pd k = some v) : pd.isEmpty = false := by
  cases pd with
  | nil => simp [dictLookup] at h
  | cons a l => rfl

/-- C6 (table shapes): a collection whose first record carries `latency`
renders the four-column latency header and verbatim rows; one whose first
record carries `ops_sec` and no `throughput` renders the three-column
header with thousands-separated ops_sec values; a first record with
neither field yields the unknown-format placeholder. -/
theorem C6_table_shapes :
    (∀ (pd : List (String × Val)) (rt : String)
       (q : String × String × String × String) (qs : List (String × String × String × String)),
       dictLookup pd "benchmarks"
         = some (.list ((q :: qs).map (fun r => latRec r.1 r.2.1 r.2.2.1 r.2.2.2))) →
       PerformanceTableRenderer.render pd rt
         = .ok (perfHeader pd rt
             ++ "| Document | Size | Latency | Throughput |\n| -------- | ---- | ------- | ---------- |\n"
             ++ strJoin ((q :: qs).map (fun r =>
                  "| " ++ r.1 ++ " | " ++ r.2.1 ++ " | " ++ r.2.2.1 ++ " | " ++ r.2.2.2 ++ " |\n"))))
  ∧ (∀ (pd : List (String × Val)) (rt : String)
       (q : String × String × Int) (qs : List (String × String × Int)),
       dictLookup pd "benchmarks"
         = some (.list ((q :: qs).map (fun r => opsRec r.1 r.2.1 r.2.2))) →
       PerformanceTableRenderer.render pd rt
         = .ok (perfHeader pd rt
             ++ "| Document | Size | Ops/sec |\n| -------- | ---- | ------- |\n"
             ++ strJoin ((q :: qs).map (fun r =>
                  "| " ++ r.1 ++ " | " ++ r.2.1 ++ " | " ++ intComma r.2.2 ++ " |\n"))))
  ∧ (∀ (pd : List (String × Val)) (rt : String) (nm sz : String) (rest : List Val),
       dictLookup pd "benchmarks" = some (.list (bareRec nm sz :: rest)) →
       PerformanceTableRenderer.render pd rt
         = .ok (perfHeader pd rt ++ "\n(Unknown benchmark format)\n")) := by
  refine ⟨?_, ?_, ?_⟩
  · intro pd rt q qs hb
    have hne := dictLookup_some_nonempty pd "benchmarks" _ hb
    have hrows := latRows_map (q :: qs)
    simp only [List.map_cons, latRec] at hrows
    unfold PerformanceTableRenderer.render
    rw [hne, hb]
    simp only [List.map_cons, latRec]
    simp [pyTruthy, pyIndexZero, pyInStrKey, dictLookup, renderLatencyTable, pyIter,
      hrows, strJoin, Bind.bind, Except.bind, Functor.map, Except.map, pure, Except.pure,
      String.append_assoc]
  · intro pd rt q qs hb
    have hne := dictLookup_some_nonempty pd "benchmarks" _ hb
    have hrows := opsRows_map (q :: qs)
    simp only [List.map_cons, opsRec] at hrows
    unfold PerformanceTableRenderer.render
    rw [hne, hb]
    simp only [List.map_cons, opsRec]
    simp [pyTruthy, pyIndexZero, pyInStrKey, dictLookup, renderOpsSecTable, pyIter,
      hrows, strJoin, Bind.bind, Except.bind, Functor.map, Except.map, pure, Except.pure,
      String.append_assoc]
  · intro pd rt nm sz rest hb
    have hne := dictLookup_some_nonempty pd "benchmarks" _ hb
    unfold PerformanceTableRenderer.render
    rw [hne, hb]
    simp [pyTruthy, pyIndexZero, bareRec, pyInStrKey, dictLookup,
      Bind.bind, Except.bind, Functor.map, Except.map, pure, Except.pure]

/-- Witness for C6: one concrete run of each of the three shapes, with a
thousands-separated ops_sec value. -/
theorem C6_table_shapes_witness :
    PerformanceTableRenderer.render
        [("platform", .str "P"), ("benchmarks", .list [latRec "doc" "1KB" "2ms" "5MB/s"])] "Py"
      = .ok (perfHeader [("platform", .str "P"),
            ("benchmarks", .list [latRec "doc" "1KB" "2ms" "5MB/s"])] "Py"
          ++ "| Document | Size | Latency | Throughput |\n| -------- | ---- | ------- | ---------- |\n"
          ++ strJoin [("| " : String) ++ "doc" ++ " | " ++ "1KB" ++ " | " ++ "2ms" ++ " | "
              ++ "5MB/s" ++ " |\n"])
  ∧ PerformanceTableRenderer.render [("benchmarks", .list [opsRec "doc" "1KB" 1234567])] "PHP"
      = .ok (perfHeader [("benchmarks", .list [opsRec "doc" "1KB" 1234567])] "PHP"
          ++ "| Document | Size | Ops/sec |\n| -------- | ---- | ------- |\n"
          ++ strJoin [("| " : String) ++ "doc" ++ " | " ++ "1KB" ++ " | " ++ intComma 1234567
              ++ " |\n"])
  ∧ intComma 1234567 = "1,234,567"
  ∧ PerformanceTableRenderer.render [("benchmarks", .list [bareRec "doc" "1KB"])] "X"
      = .ok (perfHeader [("benchmarks", .list [bareRec "doc" "1KB"])] "X"
          ++ "\n(Unknown benchmark format)\n") :=
  ⟨C6_table_shapes.1 _ "Py" ("doc", "1KB", "2ms", "5MB/s") [] rfl,
   C6_table_shapes.2.1 _ "PHP" ("doc", "1KB", 1234567) [] rfl,
   by decide,
   C6_table_shapes.2.2 _ "X" "doc" "1KB" [] rfl⟩

/-- C3 (amended): an empty data mapping or a mapping without the
`benchmarks` key renders to the empty string, while a mapping whose
`benchmarks` value is present but falsy (e.g. an empty list) renders the
header line followed by the no-benchmarks placeholder, not the empty
string. -/
theorem C3_empty_amended :
    (∀ rt, PerformanceTableRenderer.render [] rt = .ok "")
  ∧ (∀ pd rt, dictLookup pd "benchmarks" = none →
       PerformanceTableRenderer.render pd rt = .ok "")
  ∧ (∀ pd rt bv, dictLookup pd "benchmarks" = some bv → pyTruthy bv = false →
       PerformanceTableRenderer.render pd rt
         = .ok (perfHeader pd rt ++ "\n(No benchmarks available)\n")) := by
  refine ⟨?_, ?_, ?_⟩
  · intro rt
    rfl
  · intro pd rt h
    unfold PerformanceTableRenderer.render
    rw [h]
    simp
  · intro pd rt bv hb hbv
    have hne := dictLookup_some_nonempty pd "benchmarks" _ hb
    unfold PerformanceTableRenderer.render
    rw [hne, hb]
    simp [hbv]

/-- Witness for the amended C3. -/
theorem C3_empty_amended_witness :
    PerformanceTableRenderer.render [("version", .str "1")] "Py" = .ok ""
  ∧ PerformanceTableRenderer.render [("benchmarks", .list [])] "Py"
      = .ok (perfHeader [("benchmarks", .list [])] "Py" ++ "\n(No benchmarks available)\n") :=
  ⟨C3_empty_amended.2.1 [("version", .str "1")] "Py" rfl,
   C3_empty_amended.2.2 [("benchmarks", .list [])] "Py" (.list []) rfl rfl⟩

/-- C3 counterexample: a mapping with an empty benchmarks list renders the
header plus the no-benchmarks placeholder, not the empty string claimed. -/
theorem C3_counterexample :
    PerformanceTableRenderer.render [("benchmarks", .list [])] "Python"
      = .ok "Unknown •  • `convert()` (Python)\n\n\n(No benchmarks available)\n"
  ∧ ("Unknown •  • `convert()` (Python)\n\n\n(No benchmarks available)\n" : String) ≠ "" := by
  refine ⟨by rfl, by decide⟩

/-- Python `mapping.items()`. -/
def pyItems : Val → Except String (List (String × Val))
  | .dict kvs => .ok kvs
  | _ => .error "AttributeError: object has no attribute items"

/-- Python `mapping.values()`. -/
def pyValues : Val → Except String (List Val)
  | .dict kvs => .ok (kvs.map (fun kv => kv.2))
  | _ => .error "AttributeError: object has no attribute values"

/-- Python `mapping.get(key, default)`. -/
def valGet (v : Val) (k : String) (dflt : Val) : Except String Val :=
  match v with
  | .dict kvs => .ok ((dictLookup kvs k).getD dflt)
  | _ => .error "AttributeError: object has no attribute get"

/-- Python `len`. -/
def pyLen : Val → Except String Nat
  | .str s => .ok s.length
  | .list xs => .ok xs.length
  | .dict kvs => .ok kvs.length
  | .int _ => .error "TypeError: object of type int has no len"

/-- The state of a schema or configuration file on disk: absent, present
but not parseable as YAML, or parsed (with `none` for an empty document,
since `yaml.safe_load` returns `None` there). -/
inductive FileContent where
  | absent : FileContent
  | badYaml : FileContent
  | yaml : Option Val → FileContent

/-- The `for key in required_keys` loop of `load_schema`. -/
def checkRequiredKeys (schema : Val) : List String → Except String Val
  | [] => .ok schema
  | k :: ks =>
    match pyInStrKey k schema with
    | .error e => .error e
    | .ok true => checkRequiredKeys schema ks
    | .ok false => .error ("Missing required key in schema: " ++ k)

/-- `load_schema` of `scripts/generate_visitor_callbacks.py`: fails on a
missing file, on a parse failure, on an empty document (`key in None`
raises), and on the first missing key of
`[version, metadata, types, callbacks, generation]`. -/
def load_schema : FileContent → Except String Val
  | .absent => .error "FileNotFoundError: Schema file not found"
  | .badYaml => .error "YAMLError: could not parse schema"
  | .yaml none => .error "TypeError: argument of type NoneType is not iterable"
  | .yaml (some schema) =>
      checkRequiredKeys schema ["version", "metadata", "types", "callbacks", "generation"]

/-- `ReadmeGenerator.load_config`: fails on a missing file, a parse
failure, and a falsy document; afterwards it only calls
`config.get("languages", \x7b\x7d)` for logging (which can itself fail on a
non-mapping document) and returns the whole document. -/
def load_config : FileContent → Except String Val
  | .absent => .error "FileNotFoundError: Configuration file not found"
  | .badYaml => .error "ValueError: Failed to parse YAML configuration"
  | .yaml none => .error "ValueError: Configuration file is empty"
  | .yaml (some c) =>
    if pyTruthy c then
      match valGet c "languages" (.dict []) with
      | .error e => .error e
      | .ok langs =>
        match pyLen langs with
        | .error e => .error e
        | .ok _ => .ok c
    else .error "ValueError: Configuration file is empty"

/-- The file system: a finite map from paths to file contents. -/
abbrev Fs := List (String × String)

def fsLookup : Fs → String → Option String
  | [], _ => none
  | (p, c) :: rest, path => if p == path then some c else fsLookup rest path

def fsWrite (fs : Fs) (p c : String) : Fs := (p, c) :: fs

/-- The abstract Jinja2 engine: which templates exist, and how a template
renders against a context (filters may read snippet files, hence the file
system argument). -/
structure RenderEnv where
  templatesDirExists : Bool
  hasTemplate : String → Bool
  render : String → List (String × Val) → Fs → Except String String

def packagesDir (root : String) : String := pathJoin root "packages"

def docsDir (root : String) : String := pathJoin root "docs"

/-- `ReadmeGenerator.inject_migration_guide`: read
`docs/migration-guides/{lang}/{version}.md`, empty when absent. -/
def inject_migration_guide (root lang_code version : String) (fs : Fs) : String :=
  let guide_path :=
    pathJoin (pathJoin (pathJoin (docsDir root) "migration-guides") lang_code) (version ++ ".md")
  match fsLookup fs guide_path with
  | some c => c
  | none => ""

/-- Python dict-literal merge `\x7b..., **lang_config\x7d`: later keys win. -/
def dictMerge (base over : List (String × Val)) : List (String × Val) :=
  base.filter (fun kv => !(over.any (fun ov => ov.1 == kv.1))) ++ over

/-- `ReadmeGenerator._prepare_template_context`. -/
def prepareTemplateContext (config : Val) (lang_code : String) (lang_config : Val)
    (root : String) (fs : Fs) : Except String (List (String × Val)) := do
  let versionV ← valGet config "version" (.str "")
  let current_version := pyStr versionV
  let migration_guide := inject_migration_guide root lang_code current_version fs
  let licenseV ← valGet config "license" (.str "MIT")
  let discordV ← valGet config "discord_url" (.str "")
  let bannerV ← valGet config "banner_url" (.str "")
  let base := [("language", Val.str lang_code), ("version", versionV), ("license", licenseV),
               ("discord_url", discordV), ("banner_url", bannerV),
               ("migration_guide", Val.str migration_guide)]
  match lang_config with
  | .dict kvs => return dictMerge base kvs
  | _ => .error "TypeError: argument after double-star must be a mapping"

/-- `lang_config.get("template", f"{lang_code}.md.jinja")` as used by
`generate_readme` (the template name handed to the engine must be a
string). -/
def templateNameOf (lang_code : String) (lang_config : Val) : Except String String :=
  match lang_config with
  | .dict kvs =>
    match dictLookup kvs "template" with
    | some (.str s) => .ok s
    | some _ => .error "TypeError: template name must be a string"
    | none => .ok (lang_code ++ ".md.jinja")
  | _ => .error "AttributeError: object has no attribute get"

/-- `ReadmeGenerator.generate_readme`: resolve the template, build the
context, render, normalise to exactly one trailing newline, and (unless
dry-run) write the file. -/
def generate_readme (env : RenderEnv) (root : String) (config : Val) (lang_code : String)
    (lang_config : Val) (output_path : String) (dry_run : Bool) (fs : Fs) :
    Except String (String × Fs) :=
  match templateNameOf lang_code lang_config with
  | .error e => .error e
  | .ok template_name =>
    if env.hasTemplate template_name then
      match prepareTemplateContext config lang_code lang_config root fs with
      | .error e => .error e
      | .ok context =>
        match env.render template_name context fs with
        | .error e => .error ("Failed to render template " ++ template_name ++ ": " ++ e)
        | .ok content =>
          let content2 := pyRstrip content ++ "\n"
          if dry_run then .ok (content2, fs)
          else .ok (content2, fsWrite fs output_path content2)
    else .error ("Template not found: " ++ template_name)

/-- `ReadmeGenerator.validate_readme`: render in memory (dry-run) and
byte-compare against the existing file; a missing file, any exception, or
a mismatch give `false`. -/
def validate_readme (env : RenderEnv) (root : String) (config : Val) (lang_code : String)
    (lang_config : Val) (readme_path : String) (fs : Fs) : Bool :=
  match fsLookup fs readme_path with
  | none => false
  | some existing =>
    match generate_readme env root config lang_code lang_config readme_path true fs with
    | .error _ => false
    | .ok (generated, _) => generated == existing

/-- `ReadmeGenerator.resolve_output_path`: explicit `output_path` wins,
then the go v2 special case, then `packages/{language}/README.md`. -/
def resolve_output_path (root : String) (lang_code : String) (lang_config : Val) :
    Except String String :=
  match pyInStrKey "output_path" lang_config with
  | .error e => .error e
  | .ok true =>
    match pySubscript lang_config "output_path" with
    | .error e => .error e
    | .ok (.str s) => .ok (pathJoin root s)
    | .ok _ => .error "TypeError: unsupported operand for path join"
  | .ok false =>
    if lang_code = "go" then
      .ok (pathJoin (pathJoin (pathJoin (packagesDir root) "go") "v2") "README.md")
    else .ok (pathJoin (pathJoin (packagesDir root) lang_code) "README.md")

/-- The per-language loop of `ReadmeGenerator.process_all_languages`.
Path resolution happens outside the try block, so its exceptions abort
the loop; generation errors are caught per target and processing
continues with `all_ok` cleared. -/
def processLoop (env : RenderEnv) (root : String) (config : Val)
    (dry_run validate_only : Bool) :
    List (String × Val) → Fs → Bool → Fs × Except String Bool
  | [], fs, all_ok => (fs, .ok all_ok)
  | (lc, cfg) :: rest, fs, all_ok =>
    match resolve_output_path root lc cfg with
    | .error e => (fs, .error e)
    | .ok readme_path =>
      if validate_only then
        processLoop env root config dry_run validate_only rest fs
          (all_ok && validate_readme env root config lc cfg readme_path fs)
      else
        match generate_readme env root config lc cfg readme_path dry_run fs with
        | .ok (_, fs2) => processLoop env root config dry_run validate_only rest fs2 all_ok
        | .error _ => processLoop env root config dry_run validate_only rest fs false

/-- `ReadmeGenerator.process_all_languages`. -/
def process_all_languages (env : RenderEnv) (root : String) (config : Val)
    (language_filter : Option String) (dry_run validate_only : Bool) (fs : Fs) :
    Fs × Except String Bool :=
  if !(pyTruthy config) then (fs, .ok false)
  else
    match valGet config "languages" (.dict []) with
    | .error e => (fs, .error e)
    | .ok languages =>
      match language_filter with
      | some f =>
        match pyInStrKey f languages with
        | .error e => (fs, .error e)
        | .ok false => (fs, .ok false)
        | .ok true =>
          match pySubscript languages f with
          | .error e => (fs, .error e)
          | .ok v => processLoop env root config dry_run validate_only [(f, v)] fs true
      | none =>
        match pyItems languages with
        | .error e => (fs, .error e)
        | .ok items => processLoop env root config dry_run validate_only items fs true

/-- `ReadmeGenerator.main`: load the configuration, set up the engine,
process the languages; any escaped exception gives exit code 1. -/
def readmeMain (cfgFile : FileContent) (env : RenderEnv) (root : String)
    (language_filter : Option String) (dry_run validate_only : Bool) (fs : Fs) : Nat × Fs :=
  match load_config cfgFile with
  | .error _ => (1, fs)
  | .ok config =>
    if env.templatesDirExists then
      match process_all_languages env root config language_filter dry_run validate_only fs with
      | (fs2, .error _) => (1, fs2)
      | (fs2, .ok ok) => (if ok then 0 else 1, fs2)
    else (1, fs)

/-- `generate_code` of `scripts/generate_visitor_callbacks.py`: look the
template up, render, write. -/
def visitor_generate_code (env : RenderEnv) (context : List (String × Val))
    (template_name : String) (output_path : String) (fs : Fs) : Except String Fs :=
  if env.hasTemplate template_name then
    match env.render template_name context fs with
    | .error e => .error e
    | .ok rendered => .ok (fsWrite fs output_path rendered)
  else .error ("TemplateNotFound: " ++ template_name)

/-- One iteration of the target loop in the visitor generator `main`:
`Path(lang_config["template"]).name` and
`project_root / lang_config["output_file"]`, then `generate_code`. -/
def visitorProcessTarget (env : RenderEnv) (context : List (String × Val)) (root : String)
    (lang_config : Val) (fs : Fs) : Except String Fs :=
  match pySubscript lang_config "template" with
  | .error e => .error e
  | .ok (.str t) =>
    match pySubscript lang_config "output_file" with
    | .error e => .error e
    | .ok (.str o) => visitor_generate_code env context (basename t) (pathJoin root o) fs
    | .ok _ => .error "TypeError: path operand must be a string"
  | .ok _ => .error "TypeError: path operand must be a string"

/-- The target loop of the visitor generator `main`: the first failing
target calls `sys.exit(1)`, leaving the remaining targets unprocessed. -/
def visitorLoop (env : RenderEnv) (context : List (String × Val)) (root : String) :
    List (String × Val) → Fs → Fs × Option Nat
  | [], fs => (fs, none)
  | (_, lcfg) :: rest, fs =>
    match visitorProcessTarget env context root lcfg fs with
    | .ok fs2 => visitorLoop env context root rest fs2
    | .error _ => (fs, some 1)

/-- `main` of `scripts/generate_visitor_callbacks.py`. -/
def visitorMain (schemaFile : FileContent) (env : RenderEnv) (root : String) (fs : Fs) :
    Nat × Fs :=
  match load_schema schemaFile with
  | .error _ => (1, fs)
  | .ok schema =>
    if env.templatesDirExists then
      match (do
          let version ← pySubscript schema "version"
          let metadata ← pySubscript schema "metadata"
          let types ← pySubscript schema "types"
          let callbacks ← pySubscript schema "callbacks"
          let generation ← pySubscript schema "generation"
          let targets ← pySubscript generation "targets"
          let _ ← pySubscript metadata "total_callbacks"
          let targetItems ← pyItems targets
          Except.ok ([("version", version), ("metadata", metadata), ("types", types),
            ("callbacks", callbacks)], targetItems, metadata) :
          Except String ((List (String × Val)) × (List (String × Val)) × Val)) with
      | .error _ => (1, fs)
      | .ok (context, targetItems, metadata) =>
        match visitorLoop env context root targetItems fs with
        | (fs2, some code) => (code, fs2)
        | (fs2, none) =>
          match (do
              let er ← pySubscript metadata "expected_reduction"
              let _ ← pyValues er
              Except.ok () : Except String Unit) with
          | .error _ => (1, fs2)
          | .ok _ => (0, fs2)
    else (1, fs)

/-- C10: an explicit `output_path` override resolves to the project root
joined with the override for every language code — it takes precedence
over the go special case and the default —, the go v2 special case
applies only without an override, and every other language defaults to
`packages/{language}/README.md`. -/
theorem C10_output_path_precedence :
    (∀ (root lang_code : String) (kvs : List (String × Val)) (s : String),
       dictLookup kvs "output_path" = some (.str s) →
       resolve_output_path root lang_code (.dict kvs) = .ok (pathJoin root s))
  ∧ (∀ (root : String) (kvs : List (String × Val)),
       dictLookup kvs "output_path" = none →
       resolve_output_path root "go" (.dict kvs)
         = .ok (pathJoin (pathJoin (pathJoin (packagesDir root) "go") "v2") "README.md"))
  ∧ (∀ (root lang_code : String) (kvs : List (String × Val)),
       dictLookup kvs "output_path" = none → lang_code ≠ "go" →
       resolve_output_path root lang_code (.dict kvs)
         = .ok (pathJoin (pathJoin (packagesDir root) lang_code) "README.md")) := by
  refine ⟨?_, ?_, ?_⟩
  · intro root lc kvs s h
    simp [resolve_output_path, pyInStrKey, h, pySubscript]
  · intro root kvs h
    simp [resolve_output_path, pyInStrKey, h, pySubscript]
  · intro root lc kvs h hgo
    simp [resolve_output_path, pyInStrKey, h, pySubscript, hgo]

/-- Witness for C10: an override on `go` wins over the special case; the
special case fires without an override; a plain language gets the
default. -/
theorem C10_output_path_precedence_witness :
    resolve_output_path "/repo" "go" (.dict [("output_path", .str "custom/README.md")])
      = .ok (pathJoin "/repo" "custom/README.md")
  ∧ resolve_output_path "/repo" "go" (.dict [("template", .str "go.md.jinja")])
      = .ok (pathJoin (pathJoin (pathJoin (packagesDir "/repo") "go") "v2") "README.md")
  ∧ resolve_output_path "/repo" "python" (.dict [])
      = .ok (pathJoin (pathJoin (packagesDir "/repo") "python") "README.md") :=
  ⟨C10_output_path_precedence.1 "/repo" "go" _ "custom/README.md" rfl,
   C10_output_path_precedence.2.1 "/repo" _ rfl,
   C10_output_path_precedence.2.2 "/repo" "python" [] rfl (by decide)⟩

/-- Closed-form evaluation of `generate_readme` on a successful run. -/
theorem generate_readme_eq (env : RenderEnv) (root : String) (config : Val) (lc : String)
    (cfg : Val) (path : String) (dry : Bool) (fs : Fs) (tname : String)
    (ctx : List (String × Val)) (rendered : String)
    (htn : templateNameOf lc cfg = .ok tname)
    (hht : env.hasTemplate tname = true)
    (hpc : prepareTemplateContext config lc cfg root fs = .ok ctx)
    (hr : env.render tname ctx fs = .ok rendered) :
    generate_readme env root config lc cfg path dry fs
      = .ok (pyRstrip rendered ++ "\n",
          if dry then fs else fsWrite fs path (pyRstrip rendered ++ "\n")) := by
  unfold generate_readme
  simp only [htn, hht, hpc, hr, if_true]
  cases dry <;> simp

/-- C7: validating immediately after a successful non-dry-run generate of
the same target reports up to date, provided the written output is not
itself an input of the render (the render function and the prepared
context are unchanged by the write); moreover a dry-run re-generate
reproduces the same content byte for byte (determinism of rendering). -/
theorem C7_generate_validate_roundtrip :
    ∀ (env : RenderEnv) (root : String) (config : Val) (lang_code : String)
      (lang_config : Val) (output_path : String) (fs : Fs) (content : String) (fs2 : Fs),
      generate_readme env root config lang_code lang_config output_path false fs
        = .ok (content, fs2) →
      (∀ n c, env.render n c fs2 = env.render n c fs) →
      prepareTemplateContext config lang_code lang_config root fs2
        = prepareTemplateContext config lang_code lang_config root fs →
      validate_readme env root config lang_code lang_config output_path fs2 = true
      ∧ generate_readme env root config lang_code lang_config output_path true fs
        = .ok (content, fs) := by
  intro env root config lc cfg path fs content fs2 hgen hren hctx
  unfold generate_readme at hgen
  split at hgen
  · exact absurd hgen (by simp)
  · rename_i tname htn
    split at hgen
    · rename_i hht
      split at hgen
      · rename_i e hpc
        exact absurd hgen (by simp)
      · rename_i ctx hpc
        split at hgen
        · rename_i e hr
          exact absurd hgen (by simp)
        · rename_i rendered hr
          rw [if_neg (by simp)] at hgen
          rw [Except.ok.injEq, Prod.mk.injEq] at hgen
          obtain ⟨hc, hfs⟩ := hgen
          have hdry : generate_readme env root config lc cfg path true fs
              = .ok (content, fs) := by
            rw [generate_readme_eq env root config lc cfg path true fs tname ctx rendered
              htn hht hpc hr]
            rw [if_pos rfl, hc]
          refine ⟨?_, hdry⟩
          unfold validate_readme
          have hlook : fsLookup fs2 path = some content := by
            rw [← hfs, ← hc]
            simp [fsWrite, fsLookup]
          rw [hlook]
          have hpc2 : prepareTemplateContext config lc cfg root fs2 = .ok ctx := by
            rw [hctx, hpc]
          have hr2 : env.render tname ctx fs2 = .ok rendered := by
            rw [hren, hr]
          rw [generate_readme_eq env root config lc cfg path true fs2 tname ctx rendered
            htn hht hpc2 hr2]
          simp [if_pos rfl, hc]
    · rename_i hht
      exact absurd hgen (by simp)

/-- Concrete engine for the C7 witness: every template exists and renders
to `hello` independently of the file system. -/
def wEnv : RenderEnv := ⟨true, fun _ => true, fun _ _ _ => .ok "hello"⟩

def wConfig : Val := .dict [("version", .str "1.0")]

def wPath : String := "/repo/packages/python/README.md"

/-- Witness for C7 at a concrete target. -/
theorem C7_generate_validate_roundtrip_witness :
    validate_readme wEnv "/repo" wConfig "python" (.dict []) wPath [(wPath, "hello\n")] = true
  ∧ generate_readme wEnv "/repo" wConfig "python" (.dict []) wPath true []
      = .ok ("hello\n", []) :=
  C7_generate_validate_roundtrip wEnv "/repo" wConfig "python" (.dict []) wPath [] "hello\n"
    [(wPath, "hello\n")] rfl (fun _ _ => rfl) rfl

/-- The outcome validate mode reports for one target: resolve the path and
byte-compare; a resolution failure would abort the loop instead. -/
def validOutcome (env : RenderEnv) (root : String) (config : Val) (fs : Fs)
    (t : String × Val) : Bool :=
  match resolve_output_path root t.1 t.2 with
  | .ok p => validate_readme env root config t.1 t.2 p fs
  | .error _ => false

/-- C8: in validate mode the loop never changes the file system; a
missing output file and a byte mismatch each yield `false` for that
target (neither raises); and when every path resolves, the loop visits
every target and returns the conjunction of the per-target outcomes. -/
theorem C8_validate_never_writes :
    (∀ env root config dry ts fs b,
       (processLoop env root config dry true ts fs b).1 = fs)
  ∧ (∀ env root config lc cfg p fs,
       fsLookup fs p = none →
       validate_readme env root config lc cfg p fs = false)
  ∧ (∀ env root config lc cfg p fs g fs2 existing,
       fsLookup fs p = some existing →
       generate_readme env root config lc cfg p true fs = .ok (g, fs2) →
       g ≠ existing →
       validate_readme env root config lc cfg p fs = false)
  ∧ (∀ env root config dry ts fs b,
       (∀ t ∈ ts, (resolve_output_path root t.1 t.2).isOk = true) →
       processLoop env root config dry true ts fs b
         = (fs, .ok (b && ts.all (validOutcome env root config fs)))) := by
  refine ⟨?_, ?_, ?_, ?_⟩
  · intro env root config dry ts fs b
    induction ts generalizing b with
    | nil => rfl
    | cons t rest ih =>
      obtain ⟨lc, cfg⟩ := t
      unfold processLoop
      cases hr : resolve_output_path root lc cfg with
      | error e => simp [hr]
      | ok p => simp [hr, ih]
  · intro env root config lc cfg p fs h
    unfold validate_readme
    rw [h]
  · intro env root config lc cfg p fs g fs2 existing hlook hgen hne
    unfold validate_readme
    rw [hlook, hgen]
    simpa using hne
  · intro env root config dry ts fs b h
    induction ts generalizing b with
    | nil => simp [processLoop]
    | cons t rest ih =>
      obtain ⟨lc, cfg⟩ := t
      have hres : (resolve_output_path root lc cfg).isOk = true := h (lc, cfg) (by simp)
      cases hr : resolve_output_path root lc cfg with
      | error e => rw [hr] at hres; simp [Except.isOk, Except.toBool] at hres
      | ok p =>
        unfold processLoop
        rw [hr]
        have ih2 := ih (b && validate_readme env root config lc cfg p fs)
          (fun t ht => h t (List.mem_cons_of_mem _ ht))
        simp only [if_true]
        rw [ih2]
        have hv : validOutcome env root config fs (lc, cfg)
            = validate_readme env root config lc cfg p fs := by
          simp [validOutcome, hr]
        simp [List.all_cons, hv, Bool.and_assoc]

/-- Witness for C8: a singleton validate run over an empty file system
leaves it unchanged and reports the missing README as out of date. -/
theorem C8_validate_never_writes_witness :
    (processLoop wEnv "/repo" wConfig false true [("python", .dict [])] [] true).1 = []
  ∧ validate_readme wEnv "/repo" wConfig "python" (.dict []) wPath [] = false
  ∧ processLoop wEnv "/repo" wConfig false true [("python", .dict [])] [] true
      = ([], .ok (true && [("python", Val.dict [])].all (validOutcome wEnv "/repo" wConfig []))) :=
  ⟨C8_validate_never_writes.1 wEnv "/repo" wConfig false [("python", .dict [])] [] true,
   C8_validate_never_writes.2.1 wEnv "/repo" wConfig "python" (.dict []) wPath [] rfl,
   C8_validate_never_writes.2.2.2 wEnv "/repo" wConfig false [("python", .dict [])] [] true
     (fun t ht => by
       rw [List.mem_singleton] at ht
       rw [ht]
       rfl)⟩

/-- C1 (amended): in the README generator a failed generate (template not
found or render error) is caught at the target boundary, the target is
marked failed, and the loop continues with the remaining targets, the
overall result being the conjunction of per-target outcomes; the
visitor-callback generator instead exits with code 1 at the first failing
target, leaving the remaining targets unprocessed. -/
theorem C1_partial_failure_amended :
    (∀ env root config dry lc cfg rest fs b p e,
       resolve_output_path root lc cfg = .ok p →
       generate_readme env root config lc cfg p dry fs = .error e →
       processLoop env root config dry false ((lc, cfg) :: rest) fs b
         = processLoop env root config dry false rest fs false)
  ∧ (∀ env root config dry lc cfg rest fs b p c fs2,
       resolve_output_path root lc cfg = .ok p →
       generate_readme env root config lc cfg p dry fs = .ok (c, fs2) →
       processLoop env root config dry false ((lc, cfg) :: rest) fs b
         = processLoop env root config dry false rest fs2 b)
  ∧ (∀ env root config dry fs b,
       processLoop env root config dry false [] fs b = (fs, .ok b))
  ∧ (∀ env ctx root nm lcfg rest fs e,
       visitorProcessTarget env ctx root lcfg fs = .error e →
       visitorLoop env ctx root ((nm, lcfg) :: rest) fs = (fs, some 1)) := by
  refine ⟨?_, ?_, ?_, ?_⟩
  · intro env root config dry lc cfg rest fs b p e hres hgen
    conv_lhs => unfold processLoop
    rw [hres]
    simp [hgen]
  · intro env root config dry lc cfg rest fs b p c fs2 hres hgen
    conv_lhs => unfold processLoop
    rw [hres]
    simp [hgen]
  · intro env root config dry fs b
    rfl
  · intro env ctx root nm lcfg rest fs e hgen
    unfold visitorLoop
    rw [hgen]

/-- Engine for the C1 witness and counterexample: only `good.j2` exists;
it renders to `OK`. -/
def cexEnv : RenderEnv :=
  ⟨true, fun n => n == "good.j2", fun n _ _ => if n == "good.j2" then .ok "OK" else .error "boom"⟩

def cexBad : Val := .dict [("template", .str "templates/bad.j2"), ("output_file", .str "out/bad.rs")]

def cexGood : Val := .dict [("template", .str "good.j2"), ("output_file", .str "out/good.go")]

/-- Witness for the amended C1: a failed first target in the README loop
continues into the remaining targets with the flag cleared, and a failed
first target in the visitor loop aborts with exit code 1. -/
theorem C1_partial_failure_amended_witness :
    processLoop cexEnv "/repo" (.dict []) false false
        [("python", .dict []), ("go", .dict [])] [] true
      = processLoop cexEnv "/repo" (.dict []) false false [("go", .dict [])] [] false
  ∧ visitorLoop cexEnv [] "/repo" [("rust", cexBad), ("go", cexGood)] [] = ([], some 1) :=
  ⟨C1_partial_failure_amended.1 cexEnv "/repo" (.dict []) false "python" (.dict [])
      [("go", .dict [])] [] true
      (pathJoin (pathJoin (packagesDir "/repo") "python") "README.md")
      "Template not found: python.md.jinja" rfl rfl,
   C1_partial_failure_amended.2.2.2 cexEnv [] "/repo" "rust" cexBad [("go", cexGood)] []
      "TemplateNotFound: bad.j2" rfl⟩

/-- C1 counterexample: with two targets, the first broken and the second
valid, the visitor generator exits at the first target: the second target
file is never produced, although the same target succeeds when processed
alone — the run does not process every remaining target as claimed. -/
theorem C1_counterexample :
    visitorLoop cexEnv [] "/repo" [("rust", cexBad), ("go", cexGood)] [] = ([], some 1)
  ∧ fsLookup (visitorLoop cexEnv [] "/repo" [("rust", cexBad), ("go", cexGood)] []).1
      "/repo/out/good.go" = none
  ∧ visitorLoop cexEnv [] "/repo" [("go", cexGood)] [] = ([("/repo/out/good.go", "OK")], none) :=
  ⟨rfl, rfl, rfl⟩

theorem checkRequiredKeys_ok_eq (schema v : Val) (ks : List String)
    (h : checkRequiredKeys schema ks = .ok v) : v = schema := by
  induction ks with
  | nil =>
    simp [checkRequiredKeys] at h
    exact h.symm
  | cons k ks2 ih =>
    unfold checkRequiredKeys at h
    cases hk : pyInStrKey k schema with
    | error e =>
      rw [hk] at h
      simp at h
    | ok bo =>
      rw [hk] at h
      cases bo with
      | true =>
        simp at h
        exact ih h
      | false => simp at h

theorem checkRequiredKeys_dict_iff (kvs : List (String × Val)) (ks : List String) :
    (checkRequiredKeys (.dict kvs) ks = .ok (.dict kvs))
      ↔ (∀ k ∈ ks, (dictLookup kvs k).isSome = true) := by
  induction ks with
  | nil => simp [checkRequiredKeys]
  | cons k ks2 ih =>
    unfold checkRequiredKeys
    simp only [pyInStrKey]
    cases hk : (dictLookup kvs k).isSome with
    | true => simp [hk, ih, List.forall_mem_cons]
    | false => simp [hk, List.forall_mem_cons]

/-- C2 (amended): both loaders are all-or-nothing — they fail on an
absent, unparsable or empty file, and a success returns the whole parsed
document — but the visitor loader requires the five keys
version, metadata, types, callbacks and generation, while the README
loader does not require `languages` at all (a missing key merely yields
zero configured languages later); on a load failure both entry points
exit with code 1 and write nothing. -/
theorem C2_loader_amended :
    ((load_schema .absent).isOk = false
      ∧ (load_schema .badYaml).isOk = false
      ∧ (load_schema (.yaml none)).isOk = false)
  ∧ (∀ kvs : List (String × Val),
       (load_schema (.yaml (some (.dict kvs))) = .ok (.dict kvs))
         ↔ (∀ k ∈ ["version", "metadata", "types", "callbacks", "generation"],
             (dictLookup kvs k).isSome = true))
  ∧ (∀ f v, load_schema f = .ok v → f = .yaml (some v))
  ∧ ((load_config .absent).isOk = false
      ∧ (load_config .badYaml).isOk = false
      ∧ (load_config (.yaml none)).isOk = false)
  ∧ (∀ kvs : List (String × Val), kvs ≠ [] →
       dictLookup kvs "languages" = none →
       load_config (.yaml (some (.dict kvs))) = .ok (.dict kvs))
  ∧ (∀ f v, load_config f = .ok v → f = .yaml (some v))
  ∧ (∀ f env root filt dry vo fs, (load_config f).isOk = false →
       readmeMain f env root filt dry vo fs = (1, fs))
  ∧ (∀ f env root fs, (load_schema f).isOk = false →
       visitorMain f env root fs = (1, fs)) := by
  refine ⟨⟨rfl, rfl, rfl⟩, ?_, ?_, ⟨rfl, rfl, rfl⟩, ?_, ?_, ?_, ?_⟩
  · intro kvs
    exact checkRequiredKeys_dict_iff kvs _
  · intro f v h
    cases f with
    | absent => simp [load_schema] at h
    | badYaml => simp [load_schema] at h
    | yaml o =>
      cases o with
      | none => simp [load_schema] at h
      | some schema =>
        rw [checkRequiredKeys_ok_eq schema v _ h]
  · intro kvs hne hl
    have ht : pyTruthy (.dict kvs) = true := by
      cases kvs with
      | nil => exact absurd rfl hne
      | cons a l => rfl
    simp [load_config, ht, valGet, hl, pyLen]
  · intro f v h
    cases f with
    | absent => simp [load_config] at h
    | badYaml => simp [load_config] at h
    | yaml o =>
      cases o with
      | none => simp [load_config] at h
      | some c =>
        simp only [load_config] at h
        split at h
        · split at h
          · simp at h
          · split at h
            · simp at h
            · rw [Except.ok.injEq] at h
              rw [h]
        · simp at h
  · intro f env root filt dry vo fs h
    unfold readmeMain
    cases hl : load_config f with
    | error e => rfl
    | ok v =>
      rw [hl] at h
      simp [Except.isOk, Except.toBool] at h
  · intro f env root fs h
    unfold visitorMain
    cases hl : load_schema f with
    | error e => rfl
    | ok v =>
      rw [hl] at h
      simp [Except.isOk, Except.toBool] at h

/-- Witness for the amended C2: a configuration without `languages` loads
successfully, and a schema carrying all five required keys loads as the
full document. -/
theorem C2_loader_amended_witness :
    load_config (.yaml (some (.dict [("license", .str "MIT")])))
      = .ok (.dict [("license", .str "MIT")])
  ∧ load_schema (.yaml (some (.dict [("version", .str "1"), ("metadata", .dict []),
        ("types", .dict []), ("callbacks", .list []), ("generation", .dict [])])))
      = .ok (.dict [("version", .str "1"), ("metadata", .dict []),
        ("types", .dict []), ("callbacks", .list []), ("generation", .dict [])]) :=
  ⟨C2_loader_amended.2.2.2.2.1 [("license", .str "MIT")] (by simp) rfl,
   (C2_loader_amended.2.1 [("version", .str "1"), ("metadata", .dict []),
      ("types", .dict []), ("callbacks", .list []), ("generation", .dict [])]).mpr
     (by decide)⟩

/-- C2 counterexample: the README loader accepts a parsed, non-empty
configuration that has no `languages` key, where the claim requires a
configuration error; and the visitor loader rejects a schema holding
exactly the four keys the claim lists, because the code also requires
`generation`. -/
theorem C2_counterexample :
    load_config (.yaml (some (.dict [("version", .str "1.0")])))
      = .ok (.dict [("version", .str "1.0")])
  ∧ (load_schema (.yaml (some (.dict [("version", .str "1"), ("metadata", .dict []),
        ("types", .dict []), ("callbacks", .list [])])))).isOk = false :=
  ⟨rfl, rfl⟩
